import Mathlib

/-
Verification of the L20 position publisher
(src/linkerbot_hand_pkg/linkerbot_hand_pkg/l20_position_publisher.py).

The script is a single ROS2 node: a constant 20-element target vector set in
`__init__`, a fixed-rate timer with period 1.0 s, a callback `publish_command`
that builds a sensor_msgs/JointState message from the constant vector, and a
`main` entry point with a try / except KeyboardInterrupt / finally structure.

Every numeric literal in the program (100.0, 10.0, 255.0, 127.5, 0.0, 200.0,
50.0, 1.0) is exactly representable as an IEEE double, and the program performs
no arithmetic on them, so joint values and times are embedded as rationals.
-/

namespace LinkerbotHand

/-- The sensor_msgs/JointState message as used by the script: a header stamp,
and the `position`, `velocity`, `effort` float sequences. -/
structure JointState where
  header_stamp : ℚ
  position : List ℚ
  velocity : List ℚ
  effort : List ℚ
  deriving Repr, DecidableEq

/-- The constant 20-element target vector from `__init__`
(`self.target_position`, lines 36-39 of the script). -/
def target_position_init : List ℚ :=
  [100, 10, 10, 10, 10,
   255, 127.5, 127.5, 127.5, 127.5,
   0, 0, 0, 0, 0,
   200, 0, 50, 50, 50]

/-- The state of the node object after `__init__`: the timer period
(`timer_period = 1.0`) and the stored constant vector. The topic name and the
queue depth play no part in the claims. -/
structure L20PositionPublisher where
  timer_period : ℚ
  target_position : List ℚ
  deriving Repr, DecidableEq

/-- `L20PositionPublisher.__init__`: the timer period is 1.0 second and the
target vector is the constant list literal. -/
def L20PositionPublisher.init : L20PositionPublisher :=
  { timer_period := 1
    target_position := target_position_init }

/-- `publish_command`, value-level view: builds the JointState message from the
clock reading `now` (`msg.header.stamp = self.get_clock().now().to_msg()`),
sets `msg.position = self.target_position`, `msg.velocity = [50.0]*5`,
`msg.effort = []`, and the built message is what `self.publisher_.publish`
emits. -/
def L20PositionPublisher.publish_command (self : L20PositionPublisher) (now : ℚ) : JointState :=
  { header_stamp := now
    position := self.target_position
    velocity := List.replicate 5 50
    effort := [] }

/-- External events driving the node: a timer tick at clock reading `now`, or
the external stop/interrupt signal that disarms the timer (Ctrl+C aborting
`rclpy.spin`, followed by `destroy_node`). -/
inductive Event where
  | tick (now : ℚ)
  | stop
  deriving Repr, DecidableEq

/-- Run-loop state: whether the timer is still armed (`Running`), and the list
of messages emitted so far, in order. -/
structure RunState where
  running : Bool
  emitted : List JointState
  deriving Repr, DecidableEq

/-- State right after construction: timer armed, nothing emitted. -/
def initialRunState : RunState :=
  { running := true, emitted := [] }

/-- One event of the run loop: a tick fires `publish_command` only while the
timer is armed; the stop signal disarms the timer. No event re-arms the timer:
the script has no restart path. -/
def step (node : L20PositionPublisher) (s : RunState) : Event → RunState
  | .tick now =>
      if s.running then
        { s with emitted := s.emitted ++ [node.publish_command now] }
      else s
  | .stop => { s with running := false }

/-- The run loop over a sequence of events. -/
def run (node : L20PositionPublisher) (s : RunState) : List Event → RunState
  | [] => s
  | e :: es => run node (step node s e) es

/-- Fixed-rate timer semantics of `create_timer(timer_period, cb)`: the first
callback fires one full period after creation, then one per period, so the
callbacks fired by elapsed time `T` are those at `k * period` for
`1 ≤ k ≤ ⌊T / period⌋`. -/
def ticksBy (period T : ℚ) : ℕ :=
  (⌊T / period⌋).toNat

/-- The messages emitted by elapsed time `T` after construction when no stop
signal arrives in `[0, T]`: one `publish_command` per elapsed timer period, the
k-th at clock reading `k * period`. -/
def emittedBy (node : L20PositionPublisher) (T : ℚ) : List JointState :=
  (List.range (ticksBy node.timer_period T)).map
    (fun k : ℕ => node.publish_command (((k : ℚ) + 1) * node.timer_period))

/-- Python exceptions relevant to `main`: KeyboardInterrupt (the external
interrupt), the NameError raised by referencing an unbound variable, and any
other exception (e.g. an initialization failure inside the constructor). -/
inductive Exn where
  | keyboardInterrupt
  | nameError
  | otherError
  deriving Repr, DecidableEq

/-- Outcome of executing a block of Python code: normal completion with a
value, or propagation of an exception. -/
inductive PyOutcome (α : Type) where
  | ok : α → PyOutcome α
  | exn : Exn → PyOutcome α
  deriving Repr, DecidableEq

/-- What a run of `main` did: whether `position_publisher.destroy_node()`
completed, whether `rclpy.shutdown()` completed, and how `main` itself ended
(normal return, or an exception propagating out of it). -/
structure MainResult where
  destroyed_node : Bool
  shutdown_done : Bool
  result : PyOutcome Unit
  deriving Repr, DecidableEq

/-- Process exit status: 0 on normal return from `main`, 1 (non-success) when
an uncaught exception propagates out of it. -/
def exitStatus : PyOutcome Unit → ℕ
  | .ok _ => 0
  | .exn _ => 1

/-- The `main` entry point, parameterized by the outcome of the two effectful
statements in its try block: `ctorResult` is the outcome of
`L20PositionPublisher()` and `spinResult` the outcome of `rclpy.spin(...)`
(`.ok ()` when spin returns after an external runtime shutdown, `.exn
keyboardInterrupt` on Ctrl+C while blocked in spin). The model follows the
source statement by statement: if the constructor raises, `position_publisher`
is never bound and spin does not run; `except KeyboardInterrupt: pass`
swallows exactly an interrupt; the finally block then runs
`position_publisher.destroy_node()` — which raises NameError when the name was
never bound, in which case neither the node teardown nor `rclpy.shutdown()`
completes and the NameError propagates out of `main`. -/
def main (ctorResult : PyOutcome Unit) (spinResult : PyOutcome Unit) : MainResult :=
  let bound : Bool :=
    match ctorResult with
    | .ok _ => true
    | .exn _ => false
  let bodyResult : PyOutcome Unit :=
    match ctorResult with
    | .ok _ => spinResult
    | .exn e => .exn e
  let afterExcept : PyOutcome Unit :=
    match bodyResult with
    | .exn .keyboardInterrupt => .ok ()
    | r => r
  if bound then
    { destroyed_node := true, shutdown_done := true, result := afterExcept }
  else
    { destroyed_node := false, shutdown_done := false, result := .exn .nameError }

/-
Object-identity view, for the copy/aliasing claim. Python float-sequence
objects live in a store addressed by object identity; `msg.position =
self.target_position` goes through the `position` property setter of the
rosidl-generated JointState class, which for a `float64[]` field copies a
Python list into a freshly allocated `array.array` object — so the message
holds a fresh object whose contents equal the stored list's, not the stored
list itself.
-/

/-- A store of Python float-sequence objects, addressed by index (object
identity). -/
structure Store where
  cells : List (List ℚ)
  deriving Repr, DecidableEq

/-- Allocate a fresh object holding `v`; returns the store and the fresh
reference. -/
def Store.alloc (s : Store) (v : List ℚ) : Store × ℕ :=
  ({ cells := s.cells ++ [v] }, s.cells.length)

/-- Read the contents of the object at reference `r`. -/
def Store.read (s : Store) (r : ℕ) : List ℚ :=
  s.cells.getD r []

/-- In-place mutation of the object at reference `r`. -/
def Store.write (s : Store) (r : ℕ) (v : List ℚ) : Store :=
  { cells := s.cells.set r v }

/-- The node object in the identity view: it holds a reference to the list
object bound to `self.target_position` in `__init__`. -/
structure PubObj where
  target_ref : ℕ
  deriving Repr, DecidableEq

/-- Construction in the identity view: `__init__` allocates the constant list
literal as a fresh object and binds `self.target_position` to it. -/
def constructPub : Store × PubObj :=
  let sr := Store.alloc ⟨[]⟩ target_position_init
  (sr.1, ⟨sr.2⟩)

/-- `msg.position = self.target_position` in the identity view: the JointState
`position` setter copies the list's contents into a freshly allocated
`array.array` object, which the message then references. Returns the updated
store and the message's position-object reference. -/
def publishAlloc (s : Store) (p : PubObj) : Store × ℕ :=
  Store.alloc s (Store.read s p.target_ref)

/-- Events in the identity view: a timer tick (which builds and emits a
message), or an in-place mutation, by a downstream consumer, of the position
object of the `i`-th emitted message. -/
inductive SysEvent where
  | publish
  | mutateMsg (i : ℕ) (v : List ℚ)
  deriving Repr, DecidableEq

/-- Identity-view system state: the object store, the node, and the references
held by the position fields of the messages emitted so far. -/
structure SysState where
  store : Store
  pub : PubObj
  msgRefs : List ℕ
  deriving Repr, DecidableEq

/-- Identity-view state right after construction. -/
def sysInit : SysState :=
  { store := constructPub.1, pub := constructPub.2, msgRefs := [] }

/-- One identity-view event: a tick allocates the message's fresh position
object via the setter; a downstream mutation writes, in place, to a previously
emitted message's position object (and does nothing for an out-of-range
message index). -/
def sysStep (st : SysState) : SysEvent → SysState
  | .publish =>
      { st with store := (publishAlloc st.store st.pub).1
                msgRefs := st.msgRefs ++ [(publishAlloc st.store st.pub).2] }
  | .mutateMsg i v =>
      match st.msgRefs[i]? with
      | some r => { st with store := st.store.write r v }
      | none => st

/-- The identity-view loop over a sequence of events. -/
def sysRun (st : SysState) : List SysEvent → SysState
  | [] => st
  | e :: es => sysRun (sysStep st e) es

/- Helper lemmas about the run loop. -/

/-- Running the loop over a concatenation of event lists composes. -/
lemma run_append (node : L20PositionPublisher) (s : RunState) (es₁ es₂ : List Event) :
    run node s (es₁ ++ es₂) = run node (run node s es₁) es₂ := by
  induction es₁ generalizing s with
  | nil => rfl
  | cons e es ih => exact ih (step node s e)

/-- Once the timer is disarmed, a single event changes nothing. -/
lemma step_of_not_running (node : L20PositionPublisher) (s : RunState)
    (h : s.running = false) (e : Event) : step node s e = s := by
  cases e with
  | tick now => simp [step, h]
  | stop =>
      cases s with
      | mk r em =>
          cases h
          rfl

/-- Once the timer is disarmed, the run loop changes nothing. -/
lemma run_of_not_running (node : L20PositionPublisher) (s : RunState)
    (h : s.running = false) (es : List Event) : run node s es = s := by
  induction es with
  | nil => rfl
  | cons e es ih =>
      calc run node s (e :: es) = run node (step node s e) es := rfl
        _ = run node s es := by rw [step_of_not_running node s h e]
        _ = s := ih

/-- Every message in the emitted list either was there at the start or is the
output of `publish_command` at some clock reading. -/
lemma mem_emitted_run (node : L20PositionPublisher) (s : RunState) (es : List Event)
    (m : JointState) (hm : m ∈ (run node s es).emitted) :
    m ∈ s.emitted ∨ ∃ t, m = node.publish_command t := by
  induction es generalizing s with
  | nil => exact Or.inl hm
  | cons e es ih =>
      rcases ih (step node s e) hm with h | h
      · cases e with
        | tick now =>
            by_cases hr : s.running
            · simp only [step, hr, if_true] at h
              rcases List.mem_append.mp h with h | h
              · exact Or.inl h
              · exact Or.inr ⟨now, List.mem_singleton.mp h⟩
            · simp only [step, hr, if_false] at h
              exact Or.inl h
        | stop => exact Or.inl h
      · exact Or.inr h

/-- Starting from the post-construction state, every emitted message is the
output of `publish_command` at its own header stamp. -/
lemma emitted_eq_publish (es : List Event) (m : JointState)
    (hm : m ∈ (run L20PositionPublisher.init initialRunState es).emitted) :
    m = L20PositionPublisher.init.publish_command m.header_stamp := by
  rcases mem_emitted_run _ _ _ _ hm with h | ⟨t, rfl⟩
  · simp [initialRunState] at h
  · rfl

/- Helper lemmas about the object store. -/

/-- Allocation does not disturb previously allocated objects. -/
lemma Store.read_alloc_of_lt (s : Store) (v : List ℚ) (t : ℕ) (h : t < s.cells.length) :
    (s.alloc v).1.read t = s.read t := by
  simp [Store.alloc, Store.read, List.getD_eq_getElem?_getD, List.getElem?_append_left h]

/-- The freshly allocated object holds the allocated contents. -/
lemma Store.read_alloc_fresh (s : Store) (v : List ℚ) :
    (s.alloc v).1.read (s.alloc v).2 = v := by
  simp [Store.alloc, Store.read, List.getD_eq_getElem?_getD, List.getElem?_concat_length]

/-- In-place mutation of one object does not disturb a different object. -/
lemma Store.read_write_ne (s : Store) (r : ℕ) (v : List ℚ) (t : ℕ) (h : t ≠ r) :
    (s.write r v).read t = s.read t := by
  simp [Store.write, Store.read, List.getD_eq_getElem?_getD, List.getElem?_set_ne (Ne.symm h)]

/-- Invariant of the identity view: the node's target object is allocated and
still holds the construction-time constant, and every emitted message's
position object is an allocated object distinct from the target object. -/
def SysInv (st : SysState) : Prop :=
  st.pub.target_ref < st.store.cells.length ∧
  st.store.read st.pub.target_ref = target_position_init ∧
  ∀ r ∈ st.msgRefs, st.pub.target_ref ≠ r ∧ r < st.store.cells.length

lemma sysInv_init : SysInv sysInit := by
  refine ⟨?_, ?_, ?_⟩ <;> simp [sysInit, constructPub, Store.alloc, Store.read]

lemma sysInv_step (st : SysState) (hI : SysInv st) (e : SysEvent) : SysInv (sysStep st e) := by
  obtain ⟨h1, h2, h3⟩ := hI
  cases e with
  | publish =>
      refine ⟨?_, ?_, ?_⟩
      · simp only [sysStep, publishAlloc, Store.alloc, List.length_append, List.length_cons,
          List.length_nil]
        omega
      · simpa only [sysStep] using
          (Store.read_alloc_of_lt st.store (st.store.read st.pub.target_ref) st.pub.target_ref h1).trans h2
      · intro r hr
        simp only [sysStep] at hr ⊢
        rcases List.mem_append.mp hr with hr | hr
        · obtain ⟨hne, hlt⟩ := h3 r hr
          refine ⟨hne, ?_⟩
          simp only [publishAlloc, Store.alloc, List.length_append, List.length_cons,
            List.length_nil]
          omega
        · have : r = st.store.cells.length := by
            simpa [publishAlloc, Store.alloc] using List.mem_singleton.mp hr
          subst this
          refine ⟨by omega, ?_⟩
          simp only [publishAlloc, Store.alloc, List.length_append, List.length_cons,
            List.length_nil]
          omega
  | mutateMsg i v =>
      cases hget : st.msgRefs[i]? with
      | none =>
          simp only [sysStep, hget]
          exact ⟨h1, h2, h3⟩
      | some r =>
          have hrmem : r ∈ st.msgRefs := List.getElem?_mem hget
          obtain ⟨hne, hlt⟩ := h3 r hrmem
          refine ⟨?_, ?_, ?_⟩
          · simp only [sysStep, hget, Store.write, List.length_set]
            exact h1
          · simp only [sysStep, hget]
            exact (Store.read_write_ne st.store r v st.pub.target_ref hne).trans h2
          · intro r' hr'
            simp only [sysStep, hget] at hr' ⊢
            obtain ⟨hne', hlt'⟩ := h3 r' hr'
            refine ⟨hne', ?_⟩
            simp only [Store.write, List.length_set]
            exact hlt'

lemma sysInv_run (st : SysState) (hI : SysInv st) (es : List SysEvent) :
    SysInv (sysRun st es) := by
  induction es generalizing st with
  | nil => exact hI
  | cons e es ih => exact ih _ (sysInv_step st hI e)

/-- A tick's message holds a fresh position object — distinct from the target
object — whose contents equal the construction-time constant. -/
lemma publishAlloc_fresh (s : Store) (p : PubObj) (h1 : p.target_ref < s.cells.length)
    (h2 : s.read p.target_ref = target_position_init) :
    (publishAlloc s p).2 ≠ p.target_ref ∧
    (publishAlloc s p).1.read (publishAlloc s p).2 = target_position_init := by
  constructor
  · have hfresh : (publishAlloc s p).2 = s.cells.length := rfl
    rw [hfresh]
    omega
  · exact (Store.read_alloc_fresh s (s.read p.target_ref)).trans h2

/- Claim theorems. -/

/-- C1: for every timer tick that fires while the publisher is in the Running
state, the `positions` sequence of the emitted message equals the constant
target vector stored at construction, element-for-element and
order-preserving. -/
theorem spec_C1_positions_equal_target (es : List Event) (m : JointState)
    (hm : m ∈ (run L20PositionPublisher.init initialRunState es).emitted) :
    m.position = L20PositionPublisher.init.target_position := by
  rw [emitted_eq_publish es m hm]
  rfl

/-- Witness for C1: the concrete trace with a single tick at clock reading 1. -/
theorem spec_C1_witness :
    (L20PositionPublisher.init.publish_command 1).position =
      L20PositionPublisher.init.target_position :=
  spec_C1_positions_equal_target [Event.tick 1] _ (by simp [run, step, initialRunState])

/-- C2: every emitted message has `positions` of length exactly 20, empty
`efforts`, and `velocities` of length exactly 5. -/
theorem spec_C2_message_shape (es : List Event) (m : JointState)
    (hm : m ∈ (run L20PositionPublisher.init initialRunState es).emitted) :
    m.position.length = 20 ∧ m.effort = [] ∧ m.velocity.length = 5 := by
  rw [emitted_eq_publish es m hm]
  exact ⟨rfl, rfl, rfl⟩

/-- Witness for C2: the concrete trace with a single tick at clock reading 1. -/
theorem spec_C2_witness :
    (L20PositionPublisher.init.publish_command 1).position.length = 20 ∧
    (L20PositionPublisher.init.publish_command 1).effort = [] ∧
    (L20PositionPublisher.init.publish_command 1).velocity.length = 5 :=
  spec_C2_message_shape [Event.tick 1] _ (by simp [run, step, initialRunState])

/-- C3: each tick's message holds a fresh position object — never the stored
list object itself — whose contents equal the construction-time constant; and
across any interleaving of ticks and in-place downstream mutations of emitted
messages' position objects, the stored constant object still holds the
construction-time constant and is aliased by no emitted message. -/
theorem spec_C3_positions_copied_not_aliased (es : List SysEvent) :
    (sysRun sysInit es).store.read (sysRun sysInit es).pub.target_ref = target_position_init ∧
    (sysRun sysInit es).pub.target_ref ∉ (sysRun sysInit es).msgRefs ∧
    (publishAlloc (sysRun sysInit es).store (sysRun sysInit es).pub).2 ≠
      (sysRun sysInit es).pub.target_ref ∧
    (publishAlloc (sysRun sysInit es).store (sysRun sysInit es).pub).1.read
      (publishAlloc (sysRun sysInit es).store (sysRun sysInit es).pub).2 =
      target_position_init := by
  obtain ⟨h1, h2, h3⟩ := sysInv_run sysInit sysInv_init es
  obtain ⟨hfresh, hcopy⟩ := publishAlloc_fresh (sysRun sysInit es).store (sysRun sysInit es).pub h1 h2
  refine ⟨h2, ?_, hfresh, hcopy⟩
  intro hmem
  exact (h3 _ hmem).1 rfl

/-- C4: the reference configuration stores exactly the documented 20-element
vector with cadence 1.0 s, and after 3.5 s of simulated time exactly 3
messages have been emitted, each with `positions` equal to that vector. -/
theorem spec_C4_reference_scenario :
    L20PositionPublisher.init.target_position =
      [100, 10, 10, 10, 10, 255, 127.5, 127.5, 127.5, 127.5,
       0, 0, 0, 0, 0, 200, 0, 50, 50, 50] ∧
    L20PositionPublisher.init.timer_period = 1 ∧
    (emittedBy L20PositionPublisher.init (7/2)).length = 3 ∧
    (emittedBy L20PositionPublisher.init (7/2)).map (fun m => m.position) =
      [[100, 10, 10, 10, 10, 255, 127.5, 127.5, 127.5, 127.5,
        0, 0, 0, 0, 0, 200, 0, 50, 50, 50],
       [100, 10, 10, 10, 10, 255, 127.5, 127.5, 127.5, 127.5,
        0, 0, 0, 0, 0, 200, 0, 50, 50, 50],
       [100, 10, 10, 10, 10, 255, 127.5, 127.5, 127.5, 127.5,
        0, 0, 0, 0, 0, 200, 0, 50, 50, 50]] := by
  have h : ticksBy L20PositionPublisher.init.timer_period (7/2) = 3 := by
    norm_num [ticksBy, L20PositionPublisher.init]
    decide
  have hunfold : emittedBy L20PositionPublisher.init (7/2) =
      (List.range (ticksBy L20PositionPublisher.init.timer_period (7/2))).map
        (fun k : ℕ => L20PositionPublisher.init.publish_command
          (((k : ℚ) + 1) * L20PositionPublisher.init.timer_period)) := rfl
  rw [h] at hunfold
  refine ⟨rfl, rfl, ?_, ?_⟩
  · rw [hunfold, List.length_map, List.length_range]
  · rw [hunfold]
    simp [List.range_succ, L20PositionPublisher.publish_command,
      L20PositionPublisher.init, target_position_init]

/-- C5: no message is emitted before the first full cadence interval has
elapsed (no immediate publish at time zero), and an interrupt before the first
tick yields zero messages with a clean, status-0 shutdown. -/
theorem spec_C5_no_message_before_first_period (T : ℚ) (h0 : 0 ≤ T)
    (h1 : T < L20PositionPublisher.init.timer_period) :
    emittedBy L20PositionPublisher.init T = [] ∧
    main (.ok ()) (.exn .keyboardInterrupt) = ⟨true, true, .ok ()⟩ ∧
    exitStatus (main (.ok ()) (.exn .keyboardInterrupt)).result = 0 := by
  have hp : L20PositionPublisher.init.timer_period = 1 := rfl
  rw [hp] at h1
  have hf : ⌊T / (1:ℚ)⌋ = 0 := by
    rw [div_one, Int.floor_eq_zero_iff]
    exact Set.mem_Ico.mpr ⟨h0, h1⟩
  have ht : ticksBy L20PositionPublisher.init.timer_period T = 0 := by
    simp only [ticksBy, hp, hf, Int.toNat_zero]
  exact ⟨by simp [emittedBy, ht], rfl, rfl⟩

/-- Witness for C5: the interrupt-at-0.5-s scenario with cadence 1.0 s. -/
theorem spec_C5_witness :
    (0:ℚ) ≤ 1/2 ∧
    (emittedBy L20PositionPublisher.init (1/2) = [] ∧
     main (.ok ()) (.exn .keyboardInterrupt) = ⟨true, true, .ok ()⟩ ∧
     exitStatus (main (.ok ()) (.exn .keyboardInterrupt)).result = 0) :=
  ⟨by norm_num,
   spec_C5_no_message_before_first_period (1/2) (by norm_num)
     (by norm_num [L20PositionPublisher.init])⟩

/-- C6: once the publisher has received the stop signal, no further messages
are ever emitted regardless of the events that follow, and the transition is
terminal: the run loop never returns to Running. -/
theorem spec_C6_stop_terminal (es₁ es₂ : List Event) :
    (run L20PositionPublisher.init initialRunState (es₁ ++ Event.stop :: es₂)).emitted =
      (run L20PositionPublisher.init initialRunState (es₁ ++ [Event.stop])).emitted ∧
    (run L20PositionPublisher.init initialRunState (es₁ ++ Event.stop :: es₂)).running = false := by
  have hsplit : es₁ ++ Event.stop :: es₂ = (es₁ ++ [Event.stop]) ++ es₂ := by simp
  have hstop :
      (run L20PositionPublisher.init initialRunState (es₁ ++ [Event.stop])).running = false := by
    rw [run_append]
    simp [run, step]
  rw [hsplit, run_append, run_of_not_running _ _ hstop]
  exact ⟨rfl, hstop⟩

/-- C7: the entry point performs orderly shutdown — node destroyed, runtime
shut down — and returns normally (exit status 0) on both the
uninterrupted-clean path and the interrupted-then-clean path. -/
theorem spec_C7_clean_exit :
    main (.ok ()) (.ok ()) = ⟨true, true, .ok ()⟩ ∧
    main (.ok ()) (.exn .keyboardInterrupt) = ⟨true, true, .ok ()⟩ ∧
    exitStatus (main (.ok ()) (.ok ())).result = 0 ∧
    exitStatus (main (.ok ()) (.exn .keyboardInterrupt)).result = 0 :=
  ⟨rfl, rfl, rfl, rfl⟩

/-- C8: every emitted message's `velocities` field equals exactly the constant
sequence [50.0, 50.0, 50.0, 50.0, 50.0]. -/
theorem spec_C8_velocities_value (es : List Event) (m : JointState)
    (hm : m ∈ (run L20PositionPublisher.init initialRunState es).emitted) :
    m.velocity = [50, 50, 50, 50, 50] := by
  rw [emitted_eq_publish es m hm]
  rfl

/-- Witness for C8: the concrete trace with a single tick at clock reading 1. -/
theorem spec_C8_witness :
    (L20PositionPublisher.init.publish_command 1).velocity = [50, 50, 50, 50, 50] :=
  spec_C8_velocities_value [Event.tick 1] _ (by simp [run, step, initialRunState])

/-- C9: if construction raises anything other than the external interrupt, the
finally block references the never-bound `position_publisher` and raises
NameError, so `main` propagates an exception (non-success status) and performs
neither the node destroy nor the runtime shutdown. -/
theorem spec_C9_init_failure_nameerror (e : Exn) (spinResult : PyOutcome Unit)
    (h : e ≠ Exn.keyboardInterrupt) :
    main (.exn e) spinResult = ⟨false, false, .exn .nameError⟩ ∧
    exitStatus (main (.exn e) spinResult).result = 1 :=
  ⟨rfl, rfl⟩

/-- Witness for C9: construction fails with a generic initialization error. -/
theorem spec_C9_witness :
    Exn.otherError ≠ Exn.keyboardInterrupt ∧
    (main (.exn Exn.otherError) (.ok ()) = ⟨false, false, .exn .nameError⟩ ∧
     exitStatus (main (.exn Exn.otherError) (.ok ())).result = 1) :=
  ⟨by decide, spec_C9_init_failure_nameerror Exn.otherError (.ok ()) (by decide)⟩

/-- C10: the tick handler is deterministic in the clock reading — any two
emitted messages carrying the same timestamp are identical in every field. -/
theorem spec_C10_deterministic_in_clock (es : List Event) (m₁ m₂ : JointState)
    (h₁ : m₁ ∈ (run L20PositionPublisher.init initialRunState es).emitted)
    (h₂ : m₂ ∈ (run L20PositionPublisher.init initialRunState es).emitted)
    (hts : m₁.header_stamp = m₂.header_stamp) : m₁ = m₂ := by
  rw [emitted_eq_publish es m₁ h₁, emitted_eq_publish es m₂ h₂, hts]

/-- Witness for C10: two ticks at the same clock reading 2. -/
theorem spec_C10_witness :
    L20PositionPublisher.init.publish_command 2 ∈
      (run L20PositionPublisher.init initialRunState [Event.tick 2, Event.tick 2]).emitted ∧
    L20PositionPublisher.init.publish_command 2 = L20PositionPublisher.init.publish_command 2 :=
  ⟨by simp [run, step, initialRunState],
   spec_C10_deterministic_in_clock [Event.tick 2, Event.tick 2] _ _
     (by simp [run, step, initialRunState]) (by simp [run, step, initialRunState]) rfl⟩

end LinkerbotHand
